import Mathlib

/-!
Verification of the vote-retrieval-and-aggregation pipeline of the
ens-vote-tracker repository (src/index.js), as a shallow embedding in Lean.

Numbers that the JavaScript source handles as decimals (vote weights,
voting power, formatted token units) are carried as rationals; block
numbers, counts and support values as naturals; timestamps as integers.
For the structural identities of calculateVoteStats the additions are
taken exactly; for the order-sensitivity of its weight accumulation the
additions are taken as the IEEE-754 binary64 additions JavaScript
actually performs, modelled by roundToDouble below (exact sum followed
by rounding to 53 significant bits, round to nearest, ties to even).
Fallible RPC calls (getLogs, getBlock, getVotes, getPastVotes,
lookupAddress) are modelled as oracle functions returning Option, where
none stands for a rejected promise.  Fallible file reads are modelled the
same way.  A rejected enrichment promise inside Promise.all is modelled
with Except: the whole mapM fails with the first error, exactly as
Promise.all rejects.
-/

/-- Quorum threshold from src/index.js: QUORUM_VOTES = 1_000_000. -/
def QUORUM_VOTES : ℚ := 1000000

/-- Chunk size of the block-range scan: CHUNK_SIZE = 100000. -/
def CHUNK_SIZE : Nat := 100000

/-- Start block of the historical scan: DEFAULT_START_BLOCK = 21723989. -/
def DEFAULT_START_BLOCK : Nat := 21723989

/-- The address filtered out of the not-voted view in getNotVotedDelegates. -/
def EXCLUDED_DELEGATE : String := "0x552df471a4c7fea11ea8d7a7b0acc6989b902a95"

/-- The three vote strings produced by the support ternary in getVotingData. -/
inductive VoteChoice where
| For
| Against
| Abstain
deriving DecidableEq, Repr

/-- The ternary on parsed.args.support in getVotingData:
support 0 gives Against, support 1 gives For, anything else Abstain. -/
def choiceOfSupport (support : Nat) : VoteChoice :=
  if support = 0 then VoteChoice.Against
  else if support = 1 then VoteChoice.For
  else VoteChoice.Abstain

/-- One enriched vote record, as built by getVotingData and consumed by
calculateVoteStats and getNotVotedDelegates.  The delegate field is the
HTML string produced by resolveENSName (it embeds the raw address). -/
structure Vote where
  delegate : String
  vote : VoteChoice
  votingPower : ℚ
  weight : ℚ
  timestamp : Int
  reason : String
deriving DecidableEq, Repr

/-- Accumulator of the reduce inside calculateVoteStats. -/
structure VoteAcc where
  totalVotes : Nat
  totalWeight : ℚ
  forVotes : ℚ
  forCount : Nat
  againstVotes : ℚ
  againstCount : Nat
  abstainVotes : ℚ
  abstainCount : Nat
deriving DecidableEq, Repr

/-- Initial accumulator of the reduce in calculateVoteStats. -/
def voteAccInit : VoteAcc :=
  { totalVotes := 0, totalWeight := 0, forVotes := 0, forCount := 0,
    againstVotes := 0, againstCount := 0, abstainVotes := 0, abstainCount := 0 }

/-- One step of the reduce in calculateVoteStats: always bumps the totals,
then the branch For / Against / otherwise-Abstain. -/
def voteAccStep (acc : VoteAcc) (v : Vote) : VoteAcc :=
  let acc2 := { acc with totalVotes := acc.totalVotes + 1,
                          totalWeight := acc.totalWeight + v.weight }
  match v.vote with
  | VoteChoice.For =>
      { acc2 with forVotes := acc2.forVotes + v.weight,
                  forCount := acc2.forCount + 1 }
  | VoteChoice.Against =>
      { acc2 with againstVotes := acc2.againstVotes + v.weight,
                  againstCount := acc2.againstCount + 1 }
  | VoteChoice.Abstain =>
      { acc2 with abstainVotes := acc2.abstainVotes + v.weight,
                  abstainCount := acc2.abstainCount + 1 }

/-- The full statistics object returned by calculateVoteStats. -/
structure VoteStats where
  totalVotes : Nat
  totalWeight : ℚ
  forVotes : ℚ
  forCount : Nat
  againstVotes : ℚ
  againstCount : Nat
  abstainVotes : ℚ
  abstainCount : Nat
  quorumVotes : ℚ
  hasReachedQuorum : Bool
  votesNeededForQuorum : ℚ
deriving DecidableEq, Repr

/-- calculateVoteStats from src/index.js: reduce over the vote list, then
the three quorum fields computed from the accumulated sums. -/
def calculateVoteStats (votes : List Vote) : VoteStats :=
  let acc := votes.foldl voteAccStep voteAccInit
  { totalVotes := acc.totalVotes, totalWeight := acc.totalWeight,
    forVotes := acc.forVotes, forCount := acc.forCount,
    againstVotes := acc.againstVotes, againstCount := acc.againstCount,
    abstainVotes := acc.abstainVotes, abstainCount := acc.abstainCount,
    quorumVotes := acc.forVotes + acc.abstainVotes,
    hasReachedQuorum := decide (QUORUM_VOTES ≤ acc.forVotes + acc.abstainVotes),
    votesNeededForQuorum := max 0 (QUORUM_VOTES - (acc.forVotes + acc.abstainVotes)) }

/-- Summed weight of the votes with a given choice. -/
def sumWeightOf (c : VoteChoice) (votes : List Vote) : ℚ :=
  ((votes.filter fun v => decide (v.vote = c)).map Vote.weight).sum

/-- Number of votes with a given choice. -/
def countOf (c : VoteChoice) (votes : List Vote) : Nat :=
  votes.countP fun v => decide (v.vote = c)

/-- Summed weight of all votes. -/
def totalWeightOf (votes : List Vote) : ℚ :=
  (votes.map Vote.weight).sum

theorem foldl_voteAccStep (votes : List Vote) (acc : VoteAcc) :
    votes.foldl voteAccStep acc =
      { totalVotes := acc.totalVotes + votes.length,
        totalWeight := acc.totalWeight + totalWeightOf votes,
        forVotes := acc.forVotes + sumWeightOf VoteChoice.For votes,
        forCount := acc.forCount + countOf VoteChoice.For votes,
        againstVotes := acc.againstVotes + sumWeightOf VoteChoice.Against votes,
        againstCount := acc.againstCount + countOf VoteChoice.Against votes,
        abstainVotes := acc.abstainVotes + sumWeightOf VoteChoice.Abstain votes,
        abstainCount := acc.abstainCount + countOf VoteChoice.Abstain votes } := by
  induction votes generalizing acc with
  | nil => simp [sumWeightOf, countOf, totalWeightOf]
  | cons v vs ih =>
    simp only [List.foldl_cons, ih]
    cases hv : v.vote <;>
      simp [voteAccStep, sumWeightOf, countOf, totalWeightOf, hv,
            List.filter_cons, List.countP_cons, VoteAcc.mk.injEq] <;>
      and_intros <;>
      first
      | omega
      | ring

/-- C1: calculateVoteStats returns quorumVotes equal to the summed weight of
For votes plus the summed weight of Abstain votes (Against weight excluded),
hasReachedQuorum true exactly when quorumVotes is at least the fixed quorum
threshold of 1,000,000, and votesNeededForQuorum equal to
max(0, threshold - quorumVotes). -/
theorem calculateVoteStats_quorum_spec (votes : List Vote) :
    (calculateVoteStats votes).quorumVotes =
        sumWeightOf VoteChoice.For votes + sumWeightOf VoteChoice.Abstain votes ∧
    ((calculateVoteStats votes).hasReachedQuorum = true ↔
        (1000000 : ℚ) ≤ (calculateVoteStats votes).quorumVotes) ∧
    (calculateVoteStats votes).votesNeededForQuorum =
        max 0 (1000000 - (calculateVoteStats votes).quorumVotes) := by
  simp [calculateVoteStats, foldl_voteAccStep, voteAccInit, QUORUM_VOTES]

/-- Under exact rational accumulation, calculateVoteStats is
order-independent: all counts, summed weights and quorum fields survive
any permutation of the vote list.  Used by the amended C8 theorem; the
double-accumulated weight sums themselves are not order-independent. -/
theorem calculateVoteStats_perm (v1 v2 : List Vote) (h : v1.Perm v2) :
    calculateVoteStats v1 = calculateVoteStats v2 := by
  have hsum : ∀ c, sumWeightOf c v1 = sumWeightOf c v2 := by
    intro c
    exact ((h.filter _).map Vote.weight).sum_eq
  have hcount : ∀ c, countOf c v1 = countOf c v2 := by
    intro c
    exact h.countP_eq _
  have htot : totalWeightOf v1 = totalWeightOf v2 :=
    (h.map Vote.weight).sum_eq
  simp [calculateVoteStats, foldl_voteAccStep, voteAccInit, hsum, hcount,
        htot, h.length_eq]

/-- A sample For vote used by concrete witnesses. -/
def sampleVoteFor : Vote :=
  { delegate := "<span class=\"address\">0xA1b2C3d4E5f60718293A4b5C6d7E8F9012345678</span>",
    vote := VoteChoice.For, votingPower := 1500, weight := 1500,
    timestamp := 1700000000, reason := "" }

/-- A sample Against vote used by concrete witnesses. -/
def sampleVoteAgainst : Vote :=
  { delegate := "<span class=\"address\">0xB1b2c3d4e5f60718293a4b5c6d7e8f9012345679</span>",
    vote := VoteChoice.Against, votingPower := 200, weight := 200,
    timestamp := 1700000100, reason := "no" }

theorem calculateVoteStats_perm_witness :
    calculateVoteStats [sampleVoteFor, sampleVoteAgainst] =
      calculateVoteStats [sampleVoteAgainst, sampleVoteFor] :=
  calculateVoteStats_perm _ _ (List.Perm.swap sampleVoteAgainst sampleVoteFor [])

/-- One entry of the static delegate roster (delegates.json):
address, expected voting power, delegation metadata, prior rank. -/
structure RosterDelegate where
  address : String
  votingPower : ℚ
  delegations : Int
  onChainVotes : Int
  rank : Int
deriving DecidableEq, Repr

/-- A snapshot entry as built inside the Promise.all of getDelegateSnapshot,
before ranks are assigned. -/
structure SnapshotBase where
  address : String
  expectedVotingPower : ℚ
  actualVotingPower : ℚ
  delegations : Int
  onChainVotes : Int
  rank : Int
  hasVotingPowerChanged : Bool
deriving DecidableEq, Repr

/-- A completed delegate snapshot entry, after the map that adds
currentRank, rankChange and votingPowerChange. -/
structure DelegateSnapshotEntry extends SnapshotBase where
  currentRank : Int
  rankChange : Int
  votingPowerChange : ℚ
deriving DecidableEq, Repr

/-- The per-delegate body of the Promise.all in getDelegateSnapshot: query
getPastVotes at the snapshot block (the oracle; none models a rejected
call, which the source catches and turns into null), build the entry with
the 0.1 tolerance flag, or drop the delegate on failure. -/
def snapshotOfDelegate (oracle : String → Option ℚ) (d : RosterDelegate) :
    Option SnapshotBase :=
  (oracle d.address).map fun p =>
    { address := d.address,
      expectedVotingPower := d.votingPower,
      actualVotingPower := p,
      delegations := d.delegations,
      onChainVotes := d.onChainVotes,
      rank := d.rank,
      hasVotingPowerChanged := decide (|d.votingPower - p| > 1/10) }

/-- The descending comparator on actual voting power used by the sort in
getDelegateSnapshot (comparator b.actualVotingPower - a.actualVotingPower). -/
def descByPowerBase (a b : SnapshotBase) : Bool :=
  decide (b.actualVotingPower ≤ a.actualVotingPower)

/-- The filter-nulls-and-sort stage of getDelegateSnapshot.  The JavaScript
Array.prototype.sort is stable, modelled by mergeSort. -/
def validSnapshot (roster : List RosterDelegate) (oracle : String → Option ℚ) :
    List SnapshotBase :=
  (roster.filterMap (snapshotOfDelegate oracle)).mergeSort descByPowerBase

/-- The final map of getDelegateSnapshot: currentRank = index + 1,
rankChange = rank - currentRank, votingPowerChange = actual - expected. -/
def addRanks (l : List SnapshotBase) : List DelegateSnapshotEntry :=
  l.enum.map fun p =>
    { toSnapshotBase := p.2,
      currentRank := (p.1 : Int) + 1,
      rankChange := p.2.rank - ((p.1 : Int) + 1),
      votingPowerChange := p.2.actualVotingPower - p.2.expectedVotingPower }

/-- A fresh (cache-miss) build of the immutable delegate snapshot in
getDelegateSnapshot: per-delegate voting-power queries with failures
dropped, stable descending sort, then rank assignment. -/
def getDelegateSnapshotFresh (roster : List RosterDelegate)
    (oracle : String → Option ℚ) : List DelegateSnapshotEntry :=
  addRanks (validSnapshot roster oracle)

theorem descByPowerBase_trans (a b c : SnapshotBase)
    (h1 : descByPowerBase a b = true) (h2 : descByPowerBase b c = true) :
    descByPowerBase a c = true := by
  simp only [descByPowerBase, decide_eq_true_eq] at h1 h2 ⊢
  exact le_trans h2 h1

theorem descByPowerBase_total (a b : SnapshotBase) :
    (descByPowerBase a b || descByPowerBase b a) = true := by
  simp only [descByPowerBase, Bool.or_eq_true, decide_eq_true_eq]
  exact le_total b.actualVotingPower a.actualVotingPower

theorem map_base_addRanks (l : List SnapshotBase) :
    (addRanks l).map DelegateSnapshotEntry.toSnapshotBase = l := by
  simp only [addRanks, List.map_map]
  have : (DelegateSnapshotEntry.toSnapshotBase ∘ fun p : Nat × SnapshotBase =>
      ({ toSnapshotBase := p.2, currentRank := (p.1 : Int) + 1,
         rankChange := p.2.rank - ((p.1 : Int) + 1),
         votingPowerChange := p.2.actualVotingPower - p.2.expectedVotingPower } :
        DelegateSnapshotEntry)) = Prod.snd := by
    funext p
    rfl
  rw [this, List.enum_map_snd]

theorem length_addRanks (l : List SnapshotBase) :
    (addRanks l).length = l.length := by
  simp [addRanks]

theorem get_addRanks (l : List SnapshotBase) (i : Nat) (hi : i < l.length)
    (hi2 : i < (addRanks l).length) :
    (addRanks l).get ⟨i, hi2⟩ =
      { toSnapshotBase := l.get ⟨i, hi⟩,
        currentRank := (i : Int) + 1,
        rankChange := (l.get ⟨i, hi⟩).rank - ((i : Int) + 1),
        votingPowerChange :=
          (l.get ⟨i, hi⟩).actualVotingPower - (l.get ⟨i, hi⟩).expectedVotingPower } := by
  simp [addRanks, List.get_eq_getElem, List.getElem_map, List.getElem_enum]

/-- C5: a fresh build of getDelegateSnapshot keeps exactly the roster
delegates whose voting-power query succeeded (the build itself is total and
a failing delegate is merely dropped), sorts survivors descending by
actualVotingPower with ties kept in roster order (stable sort), assigns
currentRank as the 1-based position, rankChange as prior rank minus
currentRank, votingPowerChange as actual minus expected, and flags
hasVotingPowerChanged exactly when the absolute expected/actual difference
exceeds the 0.1 tolerance. -/
theorem getDelegateSnapshotFresh_spec (roster : List RosterDelegate)
    (oracle : String → Option ℚ) :
    ((getDelegateSnapshotFresh roster oracle).map
        DelegateSnapshotEntry.toSnapshotBase).Perm
        (roster.filterMap (snapshotOfDelegate oracle)) ∧
    (getDelegateSnapshotFresh roster oracle).Pairwise
        (fun a b => b.actualVotingPower ≤ a.actualVotingPower) ∧
    (∀ i, (hi : i < (getDelegateSnapshotFresh roster oracle).length) →
        ((getDelegateSnapshotFresh roster oracle).get ⟨i, hi⟩).currentRank =
          (i : Int) + 1) ∧
    (∀ e, e ∈ getDelegateSnapshotFresh roster oracle →
        e.rankChange = e.rank - e.currentRank ∧
        e.votingPowerChange = e.actualVotingPower - e.expectedVotingPower ∧
        (e.hasVotingPowerChanged = true ↔
          |e.expectedVotingPower - e.actualVotingPower| > 1/10)) ∧
    (∀ a b, [a, b].Sublist (roster.filterMap (snapshotOfDelegate oracle)) →
        a.actualVotingPower = b.actualVotingPower →
        [a, b].Sublist (validSnapshot roster oracle)) := by
  have hlen : (getDelegateSnapshotFresh roster oracle).length =
      (validSnapshot roster oracle).length := by
    simp [getDelegateSnapshotFresh, length_addRanks]
  refine ⟨?_, ?_, ?_, ?_, ?_⟩
  · rw [getDelegateSnapshotFresh, map_base_addRanks]
    exact List.mergeSort_perm _ _
  · have hsorted : (validSnapshot roster oracle).Pairwise
        (fun a b => descByPowerBase a b = true) :=
      List.sorted_mergeSort descByPowerBase_trans descByPowerBase_total _
    rw [List.pairwise_iff_get] at hsorted ⊢
    intro i j hij
    have hi : (i : Nat) < (validSnapshot roster oracle).length := by
      have := i.isLt
      omega
    have hj : (j : Nat) < (validSnapshot roster oracle).length := by
      have := j.isLt
      omega
    have hgi := get_addRanks (validSnapshot roster oracle) i hi i.isLt
    have hgj := get_addRanks (validSnapshot roster oracle) j hj j.isLt
    have hcmp := hsorted ⟨i, hi⟩ ⟨j, hj⟩ (by simpa using hij)
    simp only [descByPowerBase, decide_eq_true_eq] at hcmp
    show ((getDelegateSnapshotFresh roster oracle).get j).actualVotingPower ≤
        ((getDelegateSnapshotFresh roster oracle).get i).actualVotingPower
    simp only [getDelegateSnapshotFresh] at hgi hgj ⊢
    rw [show ((addRanks (validSnapshot roster oracle)).get i) =
          (addRanks (validSnapshot roster oracle)).get ⟨(i : Nat), i.isLt⟩ from rfl,
        show ((addRanks (validSnapshot roster oracle)).get j) =
          (addRanks (validSnapshot roster oracle)).get ⟨(j : Nat), j.isLt⟩ from rfl,
        hgi, hgj]
    exact hcmp
  · intro i hi
    have hi2 : i < (validSnapshot roster oracle).length := by
      omega
    simp only [getDelegateSnapshotFresh] at hi ⊢
    rw [get_addRanks (validSnapshot roster oracle) i hi2 hi]
  · intro e he
    simp only [getDelegateSnapshotFresh, addRanks, List.mem_map] at he
    obtain ⟨p, hp, hpe⟩ := he
    have hbase : p.2 ∈ validSnapshot roster oracle := by
      have h2 := List.mem_map_of_mem Prod.snd hp
      rwa [List.enum_map_snd] at h2
    have hmem : p.2 ∈ roster.filterMap (snapshotOfDelegate oracle) := by
      rw [validSnapshot, List.mem_mergeSort] at hbase
      exact hbase
    rw [List.mem_filterMap] at hmem
    obtain ⟨d, _, hd⟩ := hmem
    simp only [snapshotOfDelegate, Option.map_eq_some'] at hd
    obtain ⟨pow, hpow, hentry⟩ := hd
    subst hpe
    refine ⟨rfl, rfl, ?_⟩
    have hexp : p.2.expectedVotingPower = d.votingPower := by
      rw [← hentry]
    have hact : p.2.actualVotingPower = pow := by
      rw [← hentry]
    have hflag : p.2.hasVotingPowerChanged = decide (|d.votingPower - pow| > 1/10) := by
      rw [← hentry]
    show p.2.hasVotingPowerChanged = true ↔
        |p.2.expectedVotingPower - p.2.actualVotingPower| > 1/10
    rw [hflag, hexp, hact, decide_eq_true_iff]
  · intro a b hsub heq
    apply List.sublist_mergeSort descByPowerBase_trans descByPowerBase_total _ hsub
    refine List.pairwise_cons.mpr ⟨?_, by simp⟩
    intro c hc
    rw [List.mem_singleton] at hc
    subst hc
    simp [descByPowerBase, heq]

/-- Sample roster delegate whose on-chain power changed (expected 4, actual 5). -/
def c5DelegateA : RosterDelegate :=
  { address := "0xaa", votingPower := 4, delegations := 10, onChainVotes := 3, rank := 2 }

/-- Sample roster delegate whose on-chain power is unchanged. -/
def c5DelegateB : RosterDelegate :=
  { address := "0xbb", votingPower := 5, delegations := 20, onChainVotes := 6, rank := 1 }

/-- Sample roster delegate whose voting-power query fails. -/
def c5DelegateC : RosterDelegate :=
  { address := "0xcc", votingPower := 9, delegations := 1, onChainVotes := 0, rank := 3 }

/-- Sample voting-power oracle: fails for 0xcc, answers 5 otherwise. -/
def c5Oracle : String → Option ℚ :=
  fun a => if a = "0xcc" then none else some 5

/-- Sample three-delegate roster. -/
def c5Roster : List RosterDelegate := [c5DelegateA, c5DelegateB, c5DelegateC]

/-- Expected pre-rank snapshot entry for c5DelegateA. -/
def c5BaseA : SnapshotBase :=
  { address := "0xaa", expectedVotingPower := 4, actualVotingPower := 5,
    delegations := 10, onChainVotes := 3, rank := 2, hasVotingPowerChanged := true }

/-- Expected pre-rank snapshot entry for c5DelegateB. -/
def c5BaseB : SnapshotBase :=
  { address := "0xbb", expectedVotingPower := 5, actualVotingPower := 5,
    delegations := 20, onChainVotes := 6, rank := 1, hasVotingPowerChanged := false }

/-- Expected ranked snapshot entry for c5DelegateA. -/
def c5EntryA : DelegateSnapshotEntry :=
  { toSnapshotBase := c5BaseA, currentRank := 1, rankChange := 1, votingPowerChange := 1 }

theorem c5_filterMap_eval :
    c5Roster.filterMap (snapshotOfDelegate c5Oracle) = [c5BaseA, c5BaseB] := by
  simp [c5Roster, List.filterMap_cons, List.filterMap_nil, snapshotOfDelegate,
    c5Oracle, c5DelegateA, c5DelegateB, c5DelegateC, c5BaseA, c5BaseB]
  norm_num [abs]

theorem c5_validSnapshot_eval :
    validSnapshot c5Roster c5Oracle = [c5BaseA, c5BaseB] := by
  rw [validSnapshot, c5_filterMap_eval]
  simp [List.mergeSort, List.splitInTwo, List.merge, List.splitAt, List.splitAt.go,
    descByPowerBase, c5BaseA, c5BaseB]

theorem c5_fresh_eval :
    getDelegateSnapshotFresh c5Roster c5Oracle =
      [c5EntryA,
       { toSnapshotBase := c5BaseB, currentRank := 2, rankChange := -1,
         votingPowerChange := 0 }] := by
  rw [getDelegateSnapshotFresh, c5_validSnapshot_eval]
  simp [addRanks, List.enum, List.enumFrom, c5EntryA, c5BaseA, c5BaseB]
  norm_num

theorem getDelegateSnapshotFresh_spec_witness :
    (c5EntryA.rankChange = c5EntryA.rank - c5EntryA.currentRank ∧
     c5EntryA.votingPowerChange =
       c5EntryA.actualVotingPower - c5EntryA.expectedVotingPower ∧
     (c5EntryA.hasVotingPowerChanged = true ↔
       |c5EntryA.expectedVotingPower - c5EntryA.actualVotingPower| > 1/10)) ∧
    [c5BaseA, c5BaseB].Sublist (validSnapshot c5Roster c5Oracle) := by
  constructor
  · apply (getDelegateSnapshotFresh_spec c5Roster c5Oracle).2.2.2.1 c5EntryA
    rw [c5_fresh_eval]
    exact List.mem_cons_self _ _
  · apply (getDelegateSnapshotFresh_spec c5Roster c5Oracle).2.2.2.2 c5BaseA c5BaseB
    · rw [c5_filterMap_eval]
    · simp [c5BaseA, c5BaseB]

/-- The immutable snapshot cache: proposal id to cached snapshot, no
timestamp and no expiry (snapshot-PROPOSALID.json files). -/
def SnapshotStore : Type := Nat → Option (List DelegateSnapshotEntry)

/-- getDelegateSnapshot including its cache protocol: return the cached
snapshot whenever the key exists (regardless of age), otherwise build a
fresh snapshot and write it. -/
def getDelegateSnapshotStep (store : SnapshotStore) (proposalId : Nat)
    (roster : List RosterDelegate) (oracle : String → Option ℚ) :
    List DelegateSnapshotEntry × SnapshotStore :=
  match store proposalId with
  | some cached => (cached, store)
  | none =>
    let snap := getDelegateSnapshotFresh roster oracle
    (snap, fun k => if k = proposalId then some snap else store k)

/-- C9: building the delegate snapshot is deterministic: two fresh builds
from the same roster and pointwise-identical on-chain voting-power
responses produce identical snapshots, currentRank assignments included;
a cached snapshot is returned unchanged whenever the key exists,
regardless of age; and after any first request, a second request for the
same proposal returns exactly the first snapshot even if the roster or
the on-chain responses have since changed. -/
theorem getDelegateSnapshot_idempotent (store : SnapshotStore) (proposalId : Nat)
    (roster roster2 : List RosterDelegate)
    (oracle oracle2 o1 o2 : String → Option ℚ) :
    ((∀ a, o1 a = o2 a) →
        getDelegateSnapshotFresh roster o1 = getDelegateSnapshotFresh roster o2) ∧
    (∀ s, store proposalId = some s →
        getDelegateSnapshotStep store proposalId roster oracle = (s, store)) ∧
    ((getDelegateSnapshotStep
        (getDelegateSnapshotStep store proposalId roster oracle).2
        proposalId roster2 oracle2).1 =
      (getDelegateSnapshotStep store proposalId roster oracle).1) := by
  refine ⟨?_, ?_, ?_⟩
  · intro h
    have : o1 = o2 := funext h
    rw [this]
  · intro s hs
    simp [getDelegateSnapshotStep, hs]
  · cases hs : store proposalId with
    | some cached => simp [getDelegateSnapshotStep, hs]
    | none => simp [getDelegateSnapshotStep, hs]

/-- Sample snapshot store holding a snapshot under proposal id 7. -/
def c9Store : SnapshotStore :=
  fun k => if k = 7 then some [c5EntryA] else none

theorem getDelegateSnapshot_idempotent_witness :
    getDelegateSnapshotFresh c5Roster c5Oracle =
        getDelegateSnapshotFresh c5Roster c5Oracle ∧
    getDelegateSnapshotStep c9Store 7 c5Roster c5Oracle = ([c5EntryA], c9Store) ∧
    (getDelegateSnapshotStep
        (getDelegateSnapshotStep c9Store 7 c5Roster c5Oracle).2
        7 [] c5Oracle).1 =
      (getDelegateSnapshotStep c9Store 7 c5Roster c5Oracle).1 := by
  have h := getDelegateSnapshot_idempotent c9Store 7 c5Roster [] c5Oracle c5Oracle
    c5Oracle c5Oracle
  exact ⟨h.1 (fun a => rfl), h.2.1 [c5EntryA] rfl, h.2.2⟩

/-- The parsed shape of delegates.json: a document that may or may not
carry a delegates field.  The outer Option models the file read, the
inner Option models JSON parsing, and a missing delegates field is the
none value of the field itself. -/
structure DelegatesDoc where
  delegates : Option (List RosterDelegate)
deriving Repr

/-- loadDelegates from src/index.js: on a successful read and parse return
parsed.delegates or the empty list; on any error return the empty list. -/
def loadDelegates (readResult : Option (Option DelegatesDoc)) :
    List RosterDelegate :=
  match readResult with
  | some (some parsed) => parsed.delegates.getD []
  | _ => []

/-- C10: every roster-load failure mode (unreadable file, malformed JSON,
document without a delegates field) makes loadDelegates return the empty
list instead of raising, and the delegate snapshot built from that empty
roster is itself empty, so the failure never surfaces to the caller. -/
theorem loadDelegates_failure_empty (oracle : String → Option ℚ) :
    loadDelegates none = [] ∧
    loadDelegates (some none) = [] ∧
    loadDelegates (some (some { delegates := none })) = [] ∧
    getDelegateSnapshotFresh (loadDelegates none) oracle = [] ∧
    getDelegateSnapshotFresh [] oracle = [] := by
  refine ⟨rfl, rfl, rfl, ?_, ?_⟩ <;>
    simp [loadDelegates, getDelegateSnapshotFresh, validSnapshot, addRanks]

/-- A hexadecimal digit, as matched by the character class of the address
pattern 0x[a-fA-F0-9]{40} in getNotVotedDelegates. -/
def isHexDigitChar (c : Char) : Bool :=
  (('0' ≤ c && c ≤ '9') || ('a' ≤ c && c ≤ 'f') || ('A' ≤ c && c ≤ 'F'))

/-- Try to match 0x followed by exactly 40 hex digits at the head of the
character list, returning the matched 42 characters. -/
def matchAddressAt (cs : List Char) : Option (List Char) :=
  match cs with
  | '0' :: 'x' :: rest =>
    let hex := rest.take 40
    if hex.length = 40 && hex.all isHexDigitChar then some ('0' :: 'x' :: hex)
    else none
  | _ => none

/-- Leftmost match of the address pattern in a character list, as the
JavaScript regular expression match finds it. -/
def findAddress : List Char → Option (List Char)
  | [] => none
  | c :: rest =>
    match matchAddressAt (c :: rest) with
    | some a => some a
    | none => findAddress rest

/-- vote.delegate.match of the address pattern in getNotVotedDelegates:
the first 0x-prefixed 40-hex-digit substring of the delegate HTML, if any. -/
def extractAddress (s : String) : Option String :=
  (findAddress s.data).map fun cs => String.mk cs

/-- JavaScript toLowerCase as applied to address strings, modelled per
character (addresses are ASCII). -/
def lowerCase (s : String) : String :=
  String.mk (s.data.map Char.toLower)

/-- The Set of lower-cased voter addresses built at the top of
getNotVotedDelegates (votes whose delegate string has no address match are
dropped, as the null filter does). -/
def votedAddresses (votes : List Vote) : List String :=
  votes.filterMap fun v => (extractAddress v.delegate).map lowerCase

/-- The filter predicate of getNotVotedDelegates: has not voted
(case-insensitive), has at least 1000 actual voting power, and is not the
fixed excluded address. -/
def notVotedFilter (voted : List String) (d : DelegateSnapshotEntry) : Bool :=
  !(voted.contains (lowerCase d.address)) &&
    decide ((1000 : ℚ) ≤ d.actualVotingPower) &&
    !(lowerCase d.address == EXCLUDED_DELEGATE)

/-- The descending-by-power comparator of the sort in getNotVotedDelegates. -/
def descByPowerEntry (a b : DelegateSnapshotEntry) : Bool :=
  decide (b.actualVotingPower ≤ a.actualVotingPower)

/-- getNotVotedDelegates from src/index.js: filter the delegate snapshot by
the three conditions, then sort descending by actual voting power. -/
def getNotVotedDelegates (delegateSnapshot : List DelegateSnapshotEntry)
    (votes : List Vote) : List DelegateSnapshotEntry :=
  (delegateSnapshot.filter (notVotedFilter (votedAddresses votes))).mergeSort
    descByPowerEntry

theorem descByPowerEntry_trans (a b c : DelegateSnapshotEntry)
    (h1 : descByPowerEntry a b = true) (h2 : descByPowerEntry b c = true) :
    descByPowerEntry a c = true := by
  simp only [descByPowerEntry, decide_eq_true_eq] at h1 h2 ⊢
  exact le_trans h2 h1

theorem descByPowerEntry_total (a b : DelegateSnapshotEntry) :
    (descByPowerEntry a b || descByPowerEntry b a) = true := by
  simp only [descByPowerEntry, Bool.or_eq_true, decide_eq_true_eq]
  exact le_total b.actualVotingPower a.actualVotingPower

/-- C4: getNotVotedDelegates returns exactly the snapshot entries whose
lower-cased address is absent from the lower-cased voter-address set
extracted from the votes, whose actualVotingPower is at least 1000, and
whose address is not the fixed excluded address; the result is sorted
descending by actualVotingPower, and the comparison is case-insensitive:
a delegate whose address matches a cast vote address up to case never
appears in the result. -/
theorem getNotVotedDelegates_spec (delegateSnapshot : List DelegateSnapshotEntry)
    (votes : List Vote) :
    (getNotVotedDelegates delegateSnapshot votes).Perm
        (delegateSnapshot.filter (notVotedFilter (votedAddresses votes))) ∧
    (∀ d, d ∈ getNotVotedDelegates delegateSnapshot votes ↔
        d ∈ delegateSnapshot ∧
        lowerCase d.address ∉ votedAddresses votes ∧
        (1000 : ℚ) ≤ d.actualVotingPower ∧
        lowerCase d.address ≠ EXCLUDED_DELEGATE) ∧
    (getNotVotedDelegates delegateSnapshot votes).Pairwise
        (fun a b => b.actualVotingPower ≤ a.actualVotingPower) ∧
    (∀ v, v ∈ votes → ∀ a, extractAddress v.delegate = some a →
        ∀ d, d ∈ getNotVotedDelegates delegateSnapshot votes →
        lowerCase d.address ≠ lowerCase a) := by
  have hmem : ∀ d, d ∈ getNotVotedDelegates delegateSnapshot votes ↔
      d ∈ delegateSnapshot ∧
      lowerCase d.address ∉ votedAddresses votes ∧
      (1000 : ℚ) ≤ d.actualVotingPower ∧
      lowerCase d.address ≠ EXCLUDED_DELEGATE := by
    intro d
    rw [getNotVotedDelegates, List.mem_mergeSort, List.mem_filter]
    simp [notVotedFilter, and_assoc]
  refine ⟨List.mergeSort_perm _ _, hmem, ?_, ?_⟩
  · have hsorted := List.sorted_mergeSort descByPowerEntry_trans
      descByPowerEntry_total
      (delegateSnapshot.filter (notVotedFilter (votedAddresses votes)))
    rw [getNotVotedDelegates]
    refine hsorted.imp ?_
    intro a b hab
    simpa [descByPowerEntry] using hab
  · intro v hv a ha d hd
    have hvoted : lowerCase a ∈ votedAddresses votes := by
      rw [votedAddresses, List.mem_filterMap]
      exact ⟨v, hv, by rw [ha, Option.map_some']⟩
    have habs := ((hmem d).mp hd).2.1
    intro heq
    rw [heq] at habs
    exact habs hvoted

/-- Sample snapshot entry A: 2000 power, lower-case address, has voted. -/
def c4EntryA : DelegateSnapshotEntry :=
  { toSnapshotBase :=
      { address := "0xaaaaaaaaaaaaaaaaaaaaaaaaaaaaaaaaaaaaaaaa",
        expectedVotingPower := 2000, actualVotingPower := 2000,
        delegations := 1, onChainVotes := 1, rank := 1,
        hasVotingPowerChanged := false },
    currentRank := 1, rankChange := 0, votingPowerChange := 0 }

/-- Sample snapshot entry B: 500 power, below the 1000 floor. -/
def c4EntryB : DelegateSnapshotEntry :=
  { toSnapshotBase :=
      { address := "0xbbbbbbbbbbbbbbbbbbbbbbbbbbbbbbbbbbbbbbbb",
        expectedVotingPower := 500, actualVotingPower := 500,
        delegations := 1, onChainVotes := 1, rank := 2,
        hasVotingPowerChanged := false },
    currentRank := 3, rankChange := -1, votingPowerChange := 0 }

/-- Sample snapshot entry C: 1500 power, has not voted. -/
def c4EntryC : DelegateSnapshotEntry :=
  { toSnapshotBase :=
      { address := "0xcccccccccccccccccccccccccccccccccccccccc",
        expectedVotingPower := 1500, actualVotingPower := 1500,
        delegations := 1, onChainVotes := 1, rank := 3,
        hasVotingPowerChanged := false },
    currentRank := 2, rankChange := 1, votingPowerChange := 0 }

/-- Sample delegate snapshot for the not-voted derivation. -/
def c4Snapshot : List DelegateSnapshotEntry := [c4EntryA, c4EntryB, c4EntryC]

/-- Sample vote cast by delegate A, with the address spelled in mixed case
inside the resolved HTML, as resolveENSName produces it. -/
def c4Vote : Vote :=
  { delegate := "<span class=\"address\">0xAaAaAaAaAaAaAaAaAaAaAaAaAaAaAaAaAaAaAaAa</span>",
    vote := VoteChoice.For, votingPower := 2000, weight := 2000,
    timestamp := 0, reason := "" }

/-- Sample vote list containing only the vote by A. -/
def c4Votes : List Vote := [c4Vote]

theorem getNotVotedDelegates_spec_witness :
    c4EntryC ∈ getNotVotedDelegates c4Snapshot c4Votes ∧
    c4EntryA ∉ getNotVotedDelegates c4Snapshot c4Votes ∧
    c4EntryB ∉ getNotVotedDelegates c4Snapshot c4Votes := by
  refine ⟨?_, ?_, ?_⟩
  · apply ((getNotVotedDelegates_spec c4Snapshot c4Votes).2.1 c4EntryC).mpr
    refine ⟨by simp [c4Snapshot], by decide, by norm_num [c4EntryC], by decide⟩
  · intro hmem
    exact absurd
      (show lowerCase c4EntryA.address =
          lowerCase "0xAaAaAaAaAaAaAaAaAaAaAaAaAaAaAaAaAaAaAaAa" by decide)
      ((getNotVotedDelegates_spec c4Snapshot c4Votes).2.2.2 c4Vote
        (by simp [c4Votes]) "0xAaAaAaAaAaAaAaAaAaAaAaAaAaAaAaAaAaAaAaAa"
        (by decide) c4EntryA hmem)
  · intro hmem
    have h := (((getNotVotedDelegates_spec c4Snapshot c4Votes).2.1 c4EntryB).mp
      hmem).2.2.1
    norm_num [c4EntryB] at h

/-- One decoded VoteCast event as parsed from a log by getVotingData. -/
structure RawEvent where
  voter : String
  proposalId : Nat
  support : Nat
  weight : ℚ
  reason : String
  blockNumber : Nat
deriving DecidableEq, Repr

/-- The chain calls used while enriching one event: getBlock for the
timestamp, getVotes at the snapshot block, and the ENS lookup.  A none
result models a rejected call; for the ENS lookup the source catches the
rejection and a null answer alike, so both collapse to none here. -/
structure ChainOracles where
  blockTimestamp : Nat → Option Int
  votesAtSnapshot : String → Option ℚ
  ensLookup : String → Option String

/-- resolveENSName from src/index.js: on a resolved name wrap name and
address in HTML, otherwise (no name or lookup failure) fall back to the
raw address span. -/
def resolveENSName (lookup : String → Option String) (address : String) : String :=
  match lookup address with
  | some ensName =>
      "<span class=\"ens-name\">" ++ ensName ++
        "</span> <span class=\"address\">(" ++ address ++ ")</span>"
  | none => "<span class=\"address\">" ++ address ++ "</span>"

/-- The body of the per-event async closure inside the Promise.all of
getVotingData: fetch the block timestamp, query voting power at the
snapshot block, resolve the display name, and build the vote record.
There is no catch around the first two calls, so a failure of either
rejects this event's promise. -/
def enrichEvent (o : ChainOracles) (e : RawEvent) : Except String Vote :=
  match o.blockTimestamp e.blockNumber with
  | none => Except.error "block fetch failed"
  | some ts =>
    match o.votesAtSnapshot e.voter with
    | none => Except.error "getVotes failed"
    | some vp =>
      Except.ok
        { delegate := resolveENSName o.ensLookup e.voter,
          vote := choiceOfSupport e.support,
          votingPower := vp,
          weight := e.weight,
          timestamp := ts,
          reason := e.reason }

/-- Promise.all over the enrichment closures: succeeds with all vote
records only if every single enrichment succeeds, and rejects as a whole
as soon as any one of them rejects. -/
def buildVotes (o : ChainOracles) : List RawEvent → Except String (List Vote)
  | [] => Except.ok []
  | e :: rest =>
    match enrichEvent o e with
    | Except.error msg => Except.error msg
    | Except.ok v =>
      match buildVotes o rest with
      | Except.error msg => Except.error msg
      | Except.ok vs => Except.ok (v :: vs)

/-- Sample event whose enrichment succeeds. -/
def c2EventOk : RawEvent :=
  { voter := "0xaaaaaaaaaaaaaaaaaaaaaaaaaaaaaaaaaaaaaaaa", proposalId := 42,
    support := 1, weight := 10, reason := "", blockNumber := 1 }

/-- Sample event whose block-timestamp fetch fails. -/
def c2EventBad : RawEvent :=
  { voter := "0xbbbbbbbbbbbbbbbbbbbbbbbbbbbbbbbbbbbbbbbb", proposalId := 42,
    support := 0, weight := 3, reason := "", blockNumber := 2 }

/-- Sample oracles that reject the block fetch for block 2 only. -/
def c2Oracles : ChainOracles :=
  { blockTimestamp := fun b => if b = 2 then none else some 1700000000,
    votesAtSnapshot := fun _ => some 10,
    ensLookup := fun _ => none }

/-- C2 counterexample: with two events of which only the second event's
block-timestamp fetch fails, the enrichment stage of getVotingData fails
as a whole (Promise.all rejects and getVotingData rethrows) instead of
returning the vote record built from the first event. -/
theorem buildVotes_single_failure_aborts :
    buildVotes c2Oracles [c2EventOk, c2EventBad] =
      Except.error "block fetch failed" := rfl

/-- C2 amended: a failure of a single event's block-timestamp fetch or
voting-power query rejects the whole enrichment, so getVotingData fails
instead of skipping that event; no partial vote list is returned. -/
theorem buildVotes_failure_propagates (o : ChainOracles) (events : List RawEvent)
    (e : RawEvent) (he : e ∈ events)
    (hf : o.blockTimestamp e.blockNumber = none ∨
          o.votesAtSnapshot e.voter = none) :
    ∃ msg, buildVotes o events = Except.error msg := by
  have henrich : ∃ msg, enrichEvent o e = Except.error msg := by
    rcases hf with hts | hvp
    · exact ⟨"block fetch failed", by simp [enrichEvent, hts]⟩
    · cases hts : o.blockTimestamp e.blockNumber with
      | none => exact ⟨"block fetch failed", by simp [enrichEvent, hts]⟩
      | some t => exact ⟨"getVotes failed", by simp [enrichEvent, hts, hvp]⟩
  induction events with
  | nil => cases he
  | cons x rest ih =>
    rcases List.mem_cons.mp he with hex | her
    · obtain ⟨msg, hmsg⟩ := henrich
      rw [hex] at hmsg
      exact ⟨msg, by simp [buildVotes, hmsg]⟩
    · cases hx : enrichEvent o x with
      | error m => exact ⟨m, by simp [buildVotes, hx]⟩
      | ok v =>
        obtain ⟨msg, hrest⟩ := ih her
        exact ⟨msg, by simp [buildVotes, hx, hrest]⟩

theorem buildVotes_failure_propagates_witness :
    ∃ msg, buildVotes c2Oracles [c2EventOk, c2EventBad] = Except.error msg :=
  buildVotes_failure_propagates c2Oracles [c2EventOk, c2EventBad] c2EventBad
    (by simp) (Or.inl rfl)

/-- Sample event carrying the out-of-range support value 3. -/
def c3Event : RawEvent :=
  { voter := "0xdddddddddddddddddddddddddddddddddddddddd", proposalId := 42,
    support := 3, weight := 5, reason := "", blockNumber := 9 }

/-- Sample oracles under which every enrichment call succeeds. -/
def c3Oracles : ChainOracles :=
  { blockTimestamp := fun _ => some 1700000000,
    votesAtSnapshot := fun _ => some 5,
    ensLookup := fun _ => none }

/-- C3 counterexample: an event with support 3, outside the documented
enum, is not treated as a data-integrity error: getVotingData enriches it
successfully and assigns it the Abstain choice. -/
theorem choiceOfSupport_out_of_range_counterexample :
    choiceOfSupport 3 = VoteChoice.Abstain ∧
    enrichEvent c3Oracles c3Event =
      Except.ok
        { delegate :=
            "<span class=\"address\">0xdddddddddddddddddddddddddddddddddddddddd</span>",
          vote := VoteChoice.Abstain, votingPower := 5, weight := 5,
          timestamp := 1700000000, reason := "" } :=
  ⟨rfl, rfl⟩

/-- C3 amended: support 0 maps to Against and support 1 to For, but every
other support value, including values outside the 0/1/2 enum, maps to
Abstain; no support value is rejected, and an event with any support value
enriches successfully whenever its chain calls succeed. -/
theorem choiceOfSupport_total_spec (s : Nat) (o : ChainOracles) (e : RawEvent) :
    choiceOfSupport 0 = VoteChoice.Against ∧
    choiceOfSupport 1 = VoteChoice.For ∧
    (2 ≤ s → choiceOfSupport s = VoteChoice.Abstain) ∧
    (∀ t vp, o.blockTimestamp e.blockNumber = some t →
        o.votesAtSnapshot e.voter = some vp →
        ∃ v, enrichEvent o e = Except.ok v ∧ v.vote = choiceOfSupport e.support) := by
  refine ⟨rfl, rfl, ?_, ?_⟩
  · intro hs
    have h0 : s ≠ 0 := by omega
    have h1 : s ≠ 1 := by omega
    simp [choiceOfSupport, h0, h1]
  · intro t vp hts hvp
    exact ⟨{ delegate := resolveENSName o.ensLookup e.voter,
             vote := choiceOfSupport e.support, votingPower := vp,
             weight := e.weight, timestamp := t, reason := e.reason },
           by simp [enrichEvent, hts, hvp], rfl⟩

theorem choiceOfSupport_total_spec_witness :
    choiceOfSupport 7 = VoteChoice.Abstain ∧
    ∃ v, enrichEvent c3Oracles c3Event = Except.ok v ∧
      v.vote = choiceOfSupport c3Event.support :=
  ⟨(choiceOfSupport_total_spec 7 c3Oracles c3Event).2.2.1 (by decide),
   (choiceOfSupport_total_spec 7 c3Oracles c3Event).2.2.2 1700000000 5 rfl rfl⟩

/-- The expiring vote cache: proposal id to a stored record carrying the
write timestamp (milliseconds) and the cached data
(proposal-PROPOSALID.json files). -/
def VoteCacheStore (α : Type) : Type := String → Option (Int × α)

/-- getCachedData from src/index.js: a missing entry is a miss (null), an
entry whose timestamp + CACHE_DURATION seconds lies strictly before now is
expired and a miss (null), otherwise the stored data is returned. -/
def getCachedData {α : Type} (store : VoteCacheStore α) (duration : Int)
    (proposalId : String) (now : Int) : Option α :=
  match store proposalId with
  | none => none
  | some entry =>
    if entry.1 + duration * 1000 < now then none
    else some entry.2

/-- cacheData from src/index.js: overwrite the entry for this proposal id
with the current time and the data. -/
def cacheData {α : Type} (store : VoteCacheStore α) (proposalId : String)
    (now : Int) (data : α) : VoteCacheStore α :=
  fun k => if k = proposalId then some (now, data) else store k

/-- Sample expiring-cache store with one entry written at time 0 under the
key p; with duration 1 second its TTL in milliseconds is 1000. -/
def c6Store : VoteCacheStore String :=
  fun k => if k = "p" then some (0, "cached votes") else none

/-- C6 counterexample: the claimed hit condition storedAt + TTL > now is
wrong at the boundary: for an entry stored at time 0 with a TTL of 1000
milliseconds, a read at exactly now = 1000 is a hit (the stored data is
returned), even though storedAt + TTL > now fails there. -/
theorem getCachedData_boundary_counterexample :
    getCachedData c6Store 1 "p" 1000 = some "cached votes" ∧
    ¬ ((0 : Int) + 1 * 1000 > 1000) :=
  ⟨rfl, by decide⟩

/-- C6 amended: a read of an entry written at time T with TTL
duration * 1000 milliseconds is a hit exactly when now ≤ T + TTL
(so T + TTL - 1 and exactly T + TTL are hits and T + TTL + 1 is a miss
returning the miss value none rather than the data), and a missing entry
is likewise a miss, not an error. -/
theorem getCachedData_spec {α : Type} (store : VoteCacheStore α)
    (duration : Int) (proposalId : String) (now : Int) :
    (store proposalId = none →
        getCachedData store duration proposalId now = none) ∧
    (∀ t d, store proposalId = some (t, d) →
        (getCachedData store duration proposalId now = some d ↔
          now ≤ t + duration * 1000) ∧
        (t + duration * 1000 < now →
          getCachedData store duration proposalId now = none)) := by
  constructor
  · intro h
    simp [getCachedData, h]
  · intro t d h
    constructor
    · constructor
      · intro hit
        by_contra hlt
        simp [getCachedData, h, if_pos (by omega : t + duration * 1000 < now)]
          at hit
      · intro hle
        simp [getCachedData, h, if_neg (by omega : ¬ t + duration * 1000 < now)]
    · intro hlt
      simp [getCachedData, h, if_pos hlt]

theorem getCachedData_spec_witness :
    (getCachedData c6Store 1 "p" 999 = some "cached votes" ↔
      (999 : Int) ≤ 0 + 1 * 1000) ∧
    ((0 : Int) + 1 * 1000 < 1001 → getCachedData c6Store 1 "p" 1001 = none) ∧
    getCachedData c6Store 1 "missing" 0 = none :=
  ⟨((getCachedData_spec c6Store 1 "p" 999).2 0 "cached votes" rfl).1,
   ((getCachedData_spec c6Store 1 "p" 1001).2 0 "cached votes" rfl).2,
   (getCachedData_spec c6Store 1 "missing" 0).1 rfl⟩

/-- The block ranges visited by the chunk loop of getVotingData:
for (fromBlock = startBlock; fromBlock < currentBlock; fromBlock += CHUNK_SIZE)
with toBlock = min(fromBlock + CHUNK_SIZE - 1, currentBlock). -/
def chunkRanges (fromBlock currentBlock : Nat) : List (Nat × Nat) :=
  if h : fromBlock < currentBlock then
    (fromBlock, min (fromBlock + CHUNK_SIZE - 1) currentBlock) ::
      chunkRanges (fromBlock + CHUNK_SIZE) currentBlock
  else []
termination_by currentBlock - fromBlock
decreasing_by
  simp only [CHUNK_SIZE]
  omega

/-- The local proposal-id filter applied to each decoded log. -/
def matchesProposal (proposalId : Nat) (e : RawEvent) : Bool :=
  e.proposalId == proposalId

/-- The chunk loop of getVotingData: for each block-range chunk, fetch the
logs (the oracle; none models a rejected getLogs call, which the source
catches, warns about and skips), keep the events whose decoded proposal id
matches, and concatenate in discovery order. -/
def scanChunks (fetch : Nat × Nat → Option (List RawEvent)) (proposalId : Nat) :
    List (Nat × Nat) → List RawEvent
  | [] => []
  | c :: rest =>
    match fetch c with
    | some events =>
        events.filter (matchesProposal proposalId) ++
          scanChunks fetch proposalId rest
    | none => scanChunks fetch proposalId rest

/-- The chunk loop together with the trace of getLogs requests it issues,
one request per chunk in loop order whether or not the fetch succeeds. -/
def scanChunksWithTrace (fetch : Nat × Nat → Option (List RawEvent))
    (proposalId : Nat) : List (Nat × Nat) → List RawEvent × List (Nat × Nat)
  | [] => ([], [])
  | c :: rest =>
    let r := scanChunksWithTrace fetch proposalId rest
    match fetch c with
    | some events =>
        (events.filter (matchesProposal proposalId) ++ r.1, c :: r.2)
    | none => (r.1, c :: r.2)

/-- C7: if the log fetch for one chunk of the scan fails, that chunk is
skipped and the scan returns exactly the matched events of the remaining
chunks (removing the failed chunk from the chunk list changes nothing);
the scan is total, so the whole retrieval never fails; and every chunk is
requested exactly once in loop order, so no chunk is retried within the
same scan. -/
theorem scanChunks_skip_failed (fetch : Nat × Nat → Option (List RawEvent))
    (proposalId : Nat) (chunks : List (Nat × Nat)) (c : Nat × Nat)
    (hf : fetch c = none) :
    scanChunks fetch proposalId chunks =
      scanChunks fetch proposalId (chunks.erase c) ∧
    (scanChunksWithTrace fetch proposalId chunks).2 = chunks ∧
    (scanChunksWithTrace fetch proposalId chunks).1 =
      scanChunks fetch proposalId chunks := by
  refine ⟨?_, ?_, ?_⟩
  · induction chunks with
    | nil => rfl
    | cons x rest ih =>
      rw [List.erase_cons]
      by_cases hx : x = c
      · subst hx
        simp [scanChunks, hf]
      · have : (x == c) = false := beq_false_of_ne hx
        rw [this]
        simp only [Bool.false_eq_true, if_false]
        cases hfx : fetch x with
        | none => simp [scanChunks, hfx, ih]
        | some events => simp [scanChunks, hfx, ih]
  · induction chunks with
    | nil => rfl
    | cons x rest ih =>
      cases hfx : fetch x with
      | none => simp [scanChunksWithTrace, hfx, ih]
      | some events => simp [scanChunksWithTrace, hfx, ih]
  · induction chunks with
    | nil => rfl
    | cons x rest ih =>
      cases hfx : fetch x with
      | none => simp [scanChunksWithTrace, scanChunks, hfx, ih]
      | some events => simp [scanChunksWithTrace, scanChunks, hfx, ih]

/-- Sample fetch oracle for the scan: the first chunk rejects, the second
returns one matching and one non-matching event. -/
def c7Fetch : Nat × Nat → Option (List RawEvent) :=
  fun c =>
    if c = (DEFAULT_START_BLOCK, DEFAULT_START_BLOCK + CHUNK_SIZE - 1) then none
    else some [c2EventOk, { c2EventBad with proposalId := 7 }]

theorem scanChunks_skip_failed_witness :
    scanChunks c7Fetch 42
        (chunkRanges DEFAULT_START_BLOCK (DEFAULT_START_BLOCK + 150000)) =
      scanChunks c7Fetch 42
        ((chunkRanges DEFAULT_START_BLOCK
          (DEFAULT_START_BLOCK + 150000)).erase
            (DEFAULT_START_BLOCK, DEFAULT_START_BLOCK + CHUNK_SIZE - 1)) ∧
    (scanChunksWithTrace c7Fetch 42
        (chunkRanges DEFAULT_START_BLOCK (DEFAULT_START_BLOCK + 150000))).2 =
      chunkRanges DEFAULT_START_BLOCK (DEFAULT_START_BLOCK + 150000) ∧
    (scanChunksWithTrace c7Fetch 42
        (chunkRanges DEFAULT_START_BLOCK (DEFAULT_START_BLOCK + 150000))).1 =
      scanChunks c7Fetch 42
        (chunkRanges DEFAULT_START_BLOCK (DEFAULT_START_BLOCK + 150000)) :=
  scanChunks_skip_failed c7Fetch 42
    (chunkRanges DEFAULT_START_BLOCK (DEFAULT_START_BLOCK + 150000))
    (DEFAULT_START_BLOCK, DEFAULT_START_BLOCK + CHUNK_SIZE - 1) rfl

/-- Two to an integer power, as a rational. -/
def pow2 (e : Int) : ℚ :=
  if 0 ≤ e then ((2 : ℚ) ^ e.toNat) else 1 / ((2 : ℚ) ^ (-e).toNat)

/-- Fuel-bounded floor of the base-2 logarithm of a natural number; called
with the number itself as fuel, which always suffices since each step at
least halves the argument. -/
def natLog2F : Nat → Nat → Nat
  | 0, _ => 0
  | fuel + 1, n => if n ≥ 2 then natLog2F fuel (n / 2) + 1 else 0

/-- Floor of the base-2 logarithm of a positive rational. -/
def log2floorQ (q : ℚ) : Int :=
  let a : Int := (natLog2F q.num.natAbs q.num.natAbs : Int)
  let b : Int := (natLog2F q.den q.den : Int)
  let g : Int := a - b
  if q < pow2 g then g - 1 else g

/-- Rounding of an exact rational value to the nearest IEEE-754 binary64
double: 53 significant bits, round to nearest, ties to even.  This is the
arithmetic of the JavaScript numbers that calculateVoteStats accumulates
with += after parseFloat.  The exponent range is unbounded here; finite
binary64 exponents never exceed it, and overflow to Infinity plays no
role at the magnitudes of vote weights. -/
def roundToDouble (x : ℚ) : ℚ :=
  if x = 0 then 0
  else
    let ax : ℚ := if x < 0 then -x else x
    let e : Int := log2floorQ ax - 52
    let m : ℚ := ax / pow2 e
    let f : Int := ⌊m⌋
    let r : ℚ := m - (f : ℚ)
    let n : Int :=
      if r < 1/2 then f
      else if (1 : ℚ)/2 < r then f + 1
      else if f % 2 = 0 then f else f + 1
    let mag : ℚ := (n : ℚ) * pow2 e
    if x < 0 then -mag else mag

/-- IEEE-754 binary64 addition: the exact sum, rounded. -/
def addDouble (x y : ℚ) : ℚ := roundToDouble (x + y)

/-- One step of the reduce in calculateVoteStats with the accumulating
additions performed as the JavaScript engine performs them, in binary64
doubles; the branch structure is identical to voteAccStep. -/
def voteAccStepFP (acc : VoteAcc) (v : Vote) : VoteAcc :=
  let acc2 := { acc with totalVotes := acc.totalVotes + 1,
                          totalWeight := addDouble acc.totalWeight v.weight }
  match v.vote with
  | VoteChoice.For =>
      { acc2 with forVotes := addDouble acc2.forVotes v.weight,
                  forCount := acc2.forCount + 1 }
  | VoteChoice.Against =>
      { acc2 with againstVotes := addDouble acc2.againstVotes v.weight,
                  againstCount := acc2.againstCount + 1 }
  | VoteChoice.Abstain =>
      { acc2 with abstainVotes := addDouble acc2.abstainVotes v.weight,
                  abstainCount := acc2.abstainCount + 1 }

/-- calculateVoteStats with every number operation performed in binary64
doubles, as the source actually runs. -/
def calculateVoteStatsFP (votes : List Vote) : VoteStats :=
  let acc := votes.foldl voteAccStepFP voteAccInit
  { totalVotes := acc.totalVotes, totalWeight := acc.totalWeight,
    forVotes := acc.forVotes, forCount := acc.forCount,
    againstVotes := acc.againstVotes, againstCount := acc.againstCount,
    abstainVotes := acc.abstainVotes, abstainCount := acc.abstainCount,
    quorumVotes := addDouble acc.forVotes acc.abstainVotes,
    hasReachedQuorum :=
      decide (QUORUM_VOTES ≤ addDouble acc.forVotes acc.abstainVotes),
    votesNeededForQuorum :=
      max 0 (roundToDouble (QUORUM_VOTES - addDouble acc.forVotes acc.abstainVotes)) }

theorem roundToDouble_eval (x : ℚ) (L f : Int) (hx : 0 < x)
    (hlog : log2floorQ x = L)
    (hf : ⌊x / pow2 (L - 52)⌋ = f) :
    roundToDouble x =
      (if x / pow2 (L - 52) - (f : ℚ) < 1/2 then (f : ℚ)
       else if (1 : ℚ)/2 < x / pow2 (L - 52) - (f : ℚ) then (f : ℚ) + 1
       else if f % 2 = 0 then (f : ℚ) else (f : ℚ) + 1) * pow2 (L - 52) := by
  have hx0 : ¬ x = 0 := ne_of_gt hx
  have hxneg : ¬ x < 0 := not_lt.mpr hx.le
  simp only [roundToDouble, if_neg hx0, if_neg hxneg, hlog, hf]
  split_ifs <;> push_cast <;> ring

set_option maxRecDepth 8000 in
theorem nlog_big : natLog2F 10000000000000000 10000000000000000 = 53 := by
  simp [natLog2F]

set_option maxRecDepth 8000 in
theorem nlog_bigp1 : natLog2F 10000000000000001 10000000000000001 = 53 := by
  simp [natLog2F]

set_option maxRecDepth 8000 in
theorem nlog_bigp2 : natLog2F 10000000000000002 10000000000000002 = 53 := by
  simp [natLog2F]

theorem nlog_one : natLog2F 1 1 = 0 := by simp [natLog2F]

theorem nlog_two : natLog2F 2 2 = 1 := by simp [natLog2F]

theorem log2floorQ_big : log2floorQ 10000000000000000 = 53 := by
  norm_num [log2floorQ, pow2, nlog_big, nlog_one, show Int.toNat 53 = 53 from rfl]

theorem log2floorQ_bigp1 : log2floorQ 10000000000000001 = 53 := by
  norm_num [log2floorQ, pow2, nlog_bigp1, nlog_one, show Int.toNat 53 = 53 from rfl]

theorem log2floorQ_bigp2 : log2floorQ 10000000000000002 = 53 := by
  norm_num [log2floorQ, pow2, nlog_bigp2, nlog_one, show Int.toNat 53 = 53 from rfl]

theorem log2floorQ_one : log2floorQ 1 = 0 := by
  norm_num [log2floorQ, pow2, nlog_one, show Int.toNat 0 = 0 from rfl]

theorem log2floorQ_two : log2floorQ 2 = 1 := by
  norm_num [log2floorQ, pow2, nlog_two, nlog_one, show Int.toNat 1 = 1 from rfl]

theorem pow2_one : pow2 1 = 2 := by
  norm_num [pow2, show Int.toNat 1 = 1 from rfl]

theorem pow2_neg52 : pow2 (-52) = 1/4503599627370496 := by
  norm_num [pow2, show Int.toNat 52 = 52 from rfl]

theorem pow2_neg51 : pow2 (-51) = 1/2251799813685248 := by
  norm_num [pow2, show Int.toNat 51 = 51 from rfl]

theorem addDouble_zero_big : addDouble 0 10000000000000000 = 10000000000000000 := by
  have hs : (0 : ℚ) + 10000000000000000 = 10000000000000000 := by norm_num
  have hf : ⌊(10000000000000000 : ℚ) / pow2 (53 - 52)⌋ = 5000000000000000 := by
    rw [show ((53 : Int) - 52) = 1 by norm_num, pow2_one, Int.floor_eq_iff]
    constructor <;> norm_num
  rw [addDouble, hs, roundToDouble_eval 10000000000000000 53 5000000000000000
    (by norm_num) log2floorQ_big hf]
  rw [show ((53 : Int) - 52) = 1 by norm_num, pow2_one]
  norm_num

theorem addDouble_big_one : addDouble 10000000000000000 1 = 10000000000000000 := by
  have hs : (10000000000000000 : ℚ) + 1 = 10000000000000001 := by norm_num
  have hf : ⌊(10000000000000001 : ℚ) / pow2 (53 - 52)⌋ = 5000000000000000 := by
    rw [show ((53 : Int) - 52) = 1 by norm_num, pow2_one, Int.floor_eq_iff]
    constructor <;> norm_num
  rw [addDouble, hs, roundToDouble_eval 10000000000000001 53 5000000000000000
    (by norm_num) log2floorQ_bigp1 hf]
  rw [show ((53 : Int) - 52) = 1 by norm_num, pow2_one]
  norm_num

theorem addDouble_zero_one : addDouble 0 1 = 1 := by
  have hs : (0 : ℚ) + 1 = 1 := by norm_num
  have hf : ⌊(1 : ℚ) / pow2 (0 - 52)⌋ = 4503599627370496 := by
    rw [show ((0 : Int) - 52) = -52 by norm_num, pow2_neg52, Int.floor_eq_iff]
    constructor <;> norm_num
  rw [addDouble, hs, roundToDouble_eval 1 0 4503599627370496
    (by norm_num) log2floorQ_one hf]
  rw [show ((0 : Int) - 52) = -52 by norm_num, pow2_neg52]
  norm_num

theorem addDouble_one_one : addDouble 1 1 = 2 := by
  have hs : (1 : ℚ) + 1 = 2 := by norm_num
  have hf : ⌊(2 : ℚ) / pow2 (1 - 52)⌋ = 4503599627370496 := by
    rw [show ((1 : Int) - 52) = -51 by norm_num, pow2_neg51, Int.floor_eq_iff]
    constructor <;> norm_num
  rw [addDouble, hs, roundToDouble_eval 2 1 4503599627370496
    (by norm_num) log2floorQ_two hf]
  rw [show ((1 : Int) - 52) = -51 by norm_num, pow2_neg51]
  norm_num

theorem addDouble_two_big : addDouble 2 10000000000000000 = 10000000000000002 := by
  have hs : (2 : ℚ) + 10000000000000000 = 10000000000000002 := by norm_num
  have hf : ⌊(10000000000000002 : ℚ) / pow2 (53 - 52)⌋ = 5000000000000001 := by
    rw [show ((53 : Int) - 52) = 1 by norm_num, pow2_one, Int.floor_eq_iff]
    constructor <;> norm_num
  rw [addDouble, hs, roundToDouble_eval 10000000000000002 53 5000000000000001
    (by norm_num) log2floorQ_bigp2 hf]
  rw [show ((53 : Int) - 52) = 1 by norm_num, pow2_one]
  norm_num

theorem foldl_voteAccStepFP_counts (votes : List Vote) (acc : VoteAcc) :
    (votes.foldl voteAccStepFP acc).totalVotes = acc.totalVotes + votes.length ∧
    (votes.foldl voteAccStepFP acc).forCount =
      acc.forCount + countOf VoteChoice.For votes ∧
    (votes.foldl voteAccStepFP acc).againstCount =
      acc.againstCount + countOf VoteChoice.Against votes ∧
    (votes.foldl voteAccStepFP acc).abstainCount =
      acc.abstainCount + countOf VoteChoice.Abstain votes := by
  induction votes generalizing acc with
  | nil => simp [countOf]
  | cons v vs ih =>
    obtain ⟨h1, h2, h3, h4⟩ := ih (voteAccStepFP acc v)
    cases hv : v.vote <;>
      simp only [List.foldl_cons, h1, h2, h3, h4] <;>
      simp [voteAccStepFP, countOf, hv, List.countP_cons] <;>
      omega

/-- Sample For vote whose double weight is ten quadrillion, a value at
which the binary64 grid spacing is 2. -/
def c8VoteBig : Vote :=
  { delegate := "<span class=\"address\">0xeeeeeeeeeeeeeeeeeeeeeeeeeeeeeeeeeeeeeeee</span>",
    vote := VoteChoice.For, votingPower := 10000000000000000,
    weight := 10000000000000000, timestamp := 0, reason := "" }

/-- Sample For vote with weight one. -/
def c8VoteOne : Vote :=
  { delegate := "<span class=\"address\">0xffffffffffffffffffffffffffffffffffffffff</span>",
    vote := VoteChoice.For, votingPower := 1, weight := 1,
    timestamp := 0, reason := "" }

/-- C8 counterexample: with the binary64 additions the source actually
performs, permuting the vote list changes the accumulated For weight:
folding the weights ten quadrillion, one, one in that order yields ten
quadrillion (both ones are absorbed), while folding one, one, ten
quadrillion yields ten quadrillion plus two.  Summed weights of
calculateVoteStats are therefore not permutation-invariant. -/
theorem calculateVoteStats_perm_counterexample :
    ([c8VoteBig, c8VoteOne, c8VoteOne].Perm [c8VoteOne, c8VoteOne, c8VoteBig]) ∧
    (calculateVoteStatsFP [c8VoteBig, c8VoteOne, c8VoteOne]).forVotes ≠
      (calculateVoteStatsFP [c8VoteOne, c8VoteOne, c8VoteBig]).forVotes := by
  refine ⟨(List.perm_append_singleton c8VoteBig [c8VoteOne, c8VoteOne]).symm, ?_⟩
  have hA : (calculateVoteStatsFP [c8VoteBig, c8VoteOne, c8VoteOne]).forVotes =
      10000000000000000 := by
    simp [calculateVoteStatsFP, voteAccStepFP, voteAccInit, c8VoteBig, c8VoteOne,
      addDouble_zero_big, addDouble_big_one]
  have hB : (calculateVoteStatsFP [c8VoteOne, c8VoteOne, c8VoteBig]).forVotes =
      10000000000000002 := by
    simp [calculateVoteStatsFP, voteAccStepFP, voteAccInit, c8VoteBig, c8VoteOne,
      addDouble_zero_one, addDouble_one_one, addDouble_two_big]
  rw [hA, hB]
  norm_num

/-- C8 amended: permuting the input vote list leaves the total vote count
and the per-choice counts of calculateVoteStats unchanged even under the
binary64 double accumulation the source performs, and leaves every field,
summed weights and quorum fields included, unchanged under exact rational
accumulation; the double-accumulated weight sums themselves are order
dependent (see the counterexample). -/
theorem calculateVoteStatsFP_perm (v1 v2 : List Vote) (h : v1.Perm v2) :
    (calculateVoteStatsFP v1).totalVotes = (calculateVoteStatsFP v2).totalVotes ∧
    (calculateVoteStatsFP v1).forCount = (calculateVoteStatsFP v2).forCount ∧
    (calculateVoteStatsFP v1).againstCount =
      (calculateVoteStatsFP v2).againstCount ∧
    (calculateVoteStatsFP v1).abstainCount =
      (calculateVoteStatsFP v2).abstainCount ∧
    calculateVoteStats v1 = calculateVoteStats v2 := by
  have c1 := foldl_voteAccStepFP_counts v1 voteAccInit
  have c2 := foldl_voteAccStepFP_counts v2 voteAccInit
  have hc : ∀ c, countOf c v1 = countOf c v2 := fun c => h.countP_eq _
  refine ⟨?_, ?_, ?_, ?_, calculateVoteStats_perm v1 v2 h⟩ <;>
    · simp only [calculateVoteStatsFP, c1.1, c1.2.1, c1.2.2.1, c1.2.2.2,
        c2.1, c2.2.1, c2.2.2.1, c2.2.2.2]
      simp [hc, h.length_eq]

theorem calculateVoteStatsFP_perm_witness :
    (calculateVoteStatsFP [c8VoteBig, c8VoteOne, c8VoteOne]).forCount =
      (calculateVoteStatsFP [c8VoteOne, c8VoteOne, c8VoteBig]).forCount ∧
    calculateVoteStats [c8VoteBig, c8VoteOne, c8VoteOne] =
      calculateVoteStats [c8VoteOne, c8VoteOne, c8VoteBig] :=
  ⟨(calculateVoteStatsFP_perm _ _
      (List.perm_append_singleton c8VoteBig [c8VoteOne, c8VoteOne]).symm).2.1,
   (calculateVoteStatsFP_perm _ _
      (List.perm_append_singleton c8VoteBig [c8VoteOne, c8VoteOne]).symm).2.2.2.2⟩
